import Mathlib

/-!
Shallow embedding of the k8s-certmon certificate-health snapshot engine.

The repository contains two variants of the tool:
  * the ingress-scanning variant (`main.go`): walks all namespaces, lists
    ingress objects, and for each TLS spec fetches the referenced secret,
    parses the certificate, classifies expiry and checks the expected hosts;
  * the secret-scanning variant (an unnamed source file): walks all
    namespaces, lists secrets of type `kubernetes.io/tls`, parses each
    certificate and classifies expiry (no hostname check), normalizing the
    warning/error slices to empty non-nil slices before the final return.

Go slices are modelled as `Option (List α)`: `none` is a nil slice (which
serializes to JSON `null`), `some l` a non-nil slice with elements `l`.
`append` on a possibly-nil slice always yields a non-nil slice, as in Go.

Results of calls into the Kubernetes client library (`Namespaces().List`,
`Ingresses(ns).List`, `Secrets(ns).List`, `Secrets(ns).Get`) are inputs of
the embedding (`Except String` values stored in the `Cluster` structures):
the client's error text is opaque data.  Likewise `pem.Decode` /
`x509.ParseCertificate` / `(*x509.Certificate).VerifyHostname` are standard
library calls whose outcomes are carried by the `CrtBytes` / `PemBlock` /
`GoCert` structures; the Go code only branches on those outcomes.
-/

/-- A Go slice: `none` is the nil slice, `some l` a non-nil slice. -/
abbrev GoSlice (α : Type) : Type := Option (List α)

/-- Go's `append(s, x)`: appending to a nil slice allocates a fresh one. -/
def GoSlice.push {α : Type} (s : GoSlice α) (x : α) : GoSlice α :=
  some (s.getD [] ++ [x])

/-- Go's `len(s)`: the nil slice has length 0. -/
def glen {α : Type} (s : GoSlice α) : Nat :=
  (s.getD []).length

/-- The elements of a Go slice (nil and empty both give `[]`). -/
def GoSlice.items {α : Type} (s : GoSlice α) : List α :=
  s.getD []

/-- An `x509.Certificate` as the Go code observes it: the fields read by
`getIngresses` / `getCertificateList`, plus the outcome of the standard
library's `VerifyHostname` (`true` means the method returned a nil error,
i.e. the hostname matches the certificate's subject/SAN names under the
standard TLS hostname-matching rules implemented by `crypto/x509`). -/
structure GoCert where
  notBeforeStr : String
  notAfterStr : String
  notAfterUnix : Int
  issuerCN : String
  dnsNames : List String
  subjectNameValues : List String
  verifyHostname : String → Bool

/-- Outcome of `x509.ParseCertificate` on a decoded PEM block:
`none` models a parse failure. -/
structure PemBlock where
  parsedCert : Option GoCert

/-- The bytes under the `tls.crt` key together with the outcome of
`pem.Decode` on them (`none` models a nil block). -/
structure CrtBytes where
  len : Nat
  pemBlock : Option PemBlock

/-- A secret's data map, restricted to the only key the code reads:
`tls.crt` (`none` models an absent key). -/
structure SecretData where
  tlsCrt : Option CrtBytes

/-- Runtime configuration (`ApplicationConfig` in the Go code); only the
fields the classification logic reads. -/
structure ApplicationConfig where
  critDaysLeft : Int
  warnDaysLeft : Int

/-- `strings.Join(dns, ", ")`. -/
def joinDNS (dns : List String) : String :=
  String.intercalate ", " dns

/-- `fmt.Sprintf("certificate %s/%s (%s) expired on %s", ...)`. -/
def expiredMsg (ns owner : String) (dns : List String) (notAfter : String) : String :=
  "certificate " ++ ns ++ "/" ++ owner ++ " (" ++ joinDNS dns ++ ") expired on " ++ notAfter

/-- `fmt.Sprintf("certificate %s/%s (%s) will expire in %d days (%s).", ...)`. -/
def willExpireMsg (ns owner : String) (dns : List String) (daysLeft : Int) (notAfter : String) : String :=
  "certificate " ++ ns ++ "/" ++ owner ++ " (" ++ joinDNS dns ++ ") will expire in " ++
    toString daysLeft ++ " days (" ++ notAfter ++ ")."

/-- `fmt.Sprintf("certificate for %s/%s is not valid for host %s", ...)`. -/
def hostMismatchMsg (ns owner host : String) : String :=
  "certificate for " ++ ns ++ "/" ++ owner ++ " is not valid for host " ++ host

/-- `daysLeft := (x509Data.NotAfter.Unix() - time.Now().Unix()) / 86400`:
Go's `/` on `int64` is integer division truncating toward zero. -/
def daysLeftCalc (notAfterUnix now : Int) : Int :=
  Int.tdiv (notAfterUnix - now) 86400

/-- The expiry severity ladder shared verbatim by both variants
(`main.go` lines 162-169 and the secret variant lines 153-160):
returns the error messages appended, the warning messages appended, and
the value of `IsValid` after the ladder (it was initialized to `true`;
only the expired branch sets it to `false`). -/
def expiryLadder (ns owner : String) (dns : List String) (notAfter : String)
    (daysLeft crit warn : Int) : List String × List String × Bool :=
  if daysLeft ≤ 0 then
    ([expiredMsg ns owner dns notAfter], [], false)
  else if daysLeft ≤ crit then
    ([willExpireMsg ns owner dns daysLeft notAfter], [], true)
  else if daysLeft < warn then
    ([], [willExpireMsg ns owner dns daysLeft notAfter], true)
  else
    ([], [], true)

/-- The hostname-check loop of `main.go` (lines 171-176): for each expected
host, a failed `VerifyHostname` appends one diagnostic and clears `IsValid`;
the loop never stops early.  Returns the appended error messages in loop
order and the conjunction of all verification outcomes. -/
def hostLoop (ns owner : String) (verify : String → Bool) : List String → List String × Bool
  | [] => ([], true)
  | h :: hs =>
    let r := hostLoop ns owner verify hs
    if verify h then r else (hostMismatchMsg ns owner h :: r.1, false)

namespace IngressScan

/-- `CertificateInfo` of `main.go`. -/
structure CertificateInfo where
  issuer : String
  commonNames : GoSlice String
  notBefore : String
  notAfter : String
  dnsNames : List String
  daysLeft : Int
  isValid : Bool

/-- `IngressInfo` of `main.go` (the unexported x509 pointer is not part of
the serialized record and is dropped). -/
structure IngressInfo where
  name : String
  nspace : String
  hosts : List String
  tlsSecretName : String
  certificateInfo : Option CertificateInfo

/-- One `IngressTLS` entry of an ingress spec. -/
structure TLSSpec where
  secretName : String
  hosts : List String

/-- One ingress object: its name and TLS specs. -/
structure Ingress where
  name : String
  tls : List TLSSpec

/-- One namespace as the code observes it: its name and the outcome of
`Ingresses(ns).List` (on error client-go still returns an empty typed list,
so iteration over `.Items` yields nothing). -/
structure ClusterNS where
  name : String
  ingressesResult : Except String (List Ingress)

/-- The cluster as the code observes it: the outcome of
`Namespaces().List` and, per namespace and secret name, the outcome of
`Secrets(ns).Get(name)`. -/
structure Cluster where
  namespacesResult : Except String (List ClusterNS)
  getSecret : String → String → Except String SecretData

/-- `getx509Data` of `main.go`: fetch the secret, read `tls.crt`, PEM-decode
and X.509-parse it, failing with the code's error messages. -/
def getx509Data (getSecret : String → String → Except String SecretData)
    (nspace secretName : String) : Except String GoCert :=
  match getSecret nspace secretName with
  | .error e => .error e
  | .ok secret =>
    match secret.tlsCrt with
    | none => .error ("tls.crt does not exist in " ++ nspace ++ "/" ++ secretName)
    | some crt =>
      if crt.len = 0 then
        .error ("tls.crt for " ++ nspace ++ "/" ++ secretName ++ " is empty")
      else
        match crt.pemBlock with
        | none => .error ("Failed to decode certificate " ++ nspace ++ "/" ++ secretName)
        | some blk =>
          match blk.parsedCert with
          | none => .error ("Failed to parse certificate " ++ nspace ++ "/" ++ secretName)
          | some c => .ok c

/-- The successful-parse branch of the `tlsSpec` loop body of `getIngresses`
(`main.go` lines 145-178): builds the `CertificateInfo`, runs the expiry
ladder and the hostname loop.  Returns the record, the error messages
appended (ladder first, then host mismatches, in program order) and the
warning messages appended. -/
def processIngressCert (cfg : ApplicationConfig) (ns ingName : String) (c : GoCert)
    (hosts : List String) (now : Int) : CertificateInfo × List String × List String :=
  let daysLeft := daysLeftCalc c.notAfterUnix now
  let ladder := expiryLadder ns ingName c.dnsNames c.notAfterStr daysLeft
    cfg.critDaysLeft cfg.warnDaysLeft
  let hl := hostLoop ns ingName c.verifyHostname hosts
  let certInfo : CertificateInfo :=
    { issuer := c.issuerCN
      commonNames := c.subjectNameValues.foldl GoSlice.push (none : GoSlice String)
      notBefore := c.notBeforeStr
      notAfter := c.notAfterStr
      dnsNames := c.dnsNames
      daysLeft := daysLeft
      isValid := ladder.2.2 && hl.2 }
  (certInfo, ladder.1 ++ hl.1, ladder.2.1)

/-- Accumulator of `getIngresses`: the named return values
`(ingressInfoList, warnings, errors)`, all starting as nil slices. -/
abbrev Acc : Type := GoSlice IngressInfo × GoSlice String × GoSlice String

/-- Body of the `tlsSpec` loop of `getIngresses`: on `getx509Data` failure
append the error and `continue` (no list entry); on success process the
certificate, append its diagnostics and append the record. -/
def stepTLSSpec (cfg : ApplicationConfig) (cl : Cluster) (now : Int)
    (nsName ingName : String) (acc : Acc) (spec : TLSSpec) : Acc :=
  match getx509Data cl.getSecret nsName spec.secretName with
  | .error e => (acc.1, acc.2.1, acc.2.2.push e)
  | .ok c =>
    let r := processIngressCert cfg nsName ingName c spec.hosts now
    let info : IngressInfo :=
      { name := ingName, nspace := nsName, hosts := spec.hosts
        tlsSecretName := spec.secretName, certificateInfo := some r.1 }
    (acc.1.push info, r.2.2.foldl GoSlice.push acc.2.1, r.2.1.foldl GoSlice.push acc.2.2)

/-- Body of the ingress loop of `getIngresses`. -/
def stepIngress (cfg : ApplicationConfig) (cl : Cluster) (now : Int)
    (nsName : String) (acc : Acc) (ing : Ingress) : Acc :=
  ing.tls.foldl (stepTLSSpec cfg cl now nsName ing.name) acc

/-- Body of the namespace loop of `getIngresses`: the error of
`Ingresses(ns).List` is assigned to the blank identifier (and the following
`if err != nil` tests the stale error of the namespaces call, which is nil
here, so it never fires); on a listing failure the empty returned list makes
the namespace contribute nothing. -/
def stepNamespace (cfg : ApplicationConfig) (cl : Cluster) (now : Int)
    (acc : Acc) (ns : ClusterNS) : Acc :=
  let ingresses := match ns.ingressesResult with
    | .error _ => []
    | .ok l => l
  ingresses.foldl (stepIngress cfg cl now ns.name) acc

/-- `getIngresses` of `main.go`: on a namespaces-enumeration failure, append
that one error and return a nil record list; otherwise fold the namespace
loop over all namespaces. -/
def getIngresses (cfg : ApplicationConfig) (cl : Cluster) (now : Int) : Acc :=
  match cl.namespacesResult with
  | .error e => (none, none, GoSlice.push none e)
  | .ok nss => nss.foldl (stepNamespace cfg cl now) (none, none, none)

/-- `StatusResponse` of `main.go`. -/
structure StatusResponse where
  lastUpdated : String
  errors : GoSlice String
  warnings : GoSlice String
  certificates : GoSlice IngressInfo

/-- One iteration of the refresh goroutine of `main.go`: run `getIngresses`
and build a fresh `StatusResponse` from its three results (no field of any
previous response is read). -/
def refreshCycle (cfg : ApplicationConfig) (cl : Cluster) (now : Int)
    (lastUpdatedStr : String) : StatusResponse :=
  let r := getIngresses cfg cl now
  { lastUpdated := lastUpdatedStr, errors := r.2.2, warnings := r.2.1, certificates := r.1 }

/-- The HTTP handler's status-code choice of `main.go` (lines 244-250):
202 when `len(errors) > 0`, else 201 when `len(warnings) > 0`, else 200. -/
def httpStatusCode (s : StatusResponse) : Nat :=
  if 0 < glen s.errors then 202
  else if 0 < glen s.warnings then 201
  else 200

end IngressScan

namespace SecretScan

/-- `CertificateInfo` of the secret-scanning variant (carries the secret
name and namespace itself). -/
structure CertificateInfo where
  secretName : String
  nspace : String
  issuer : String
  commonNames : GoSlice String
  notBefore : String
  notAfter : String
  dnsNames : List String
  daysLeft : Int
  isValid : Bool

/-- One secret as returned by `Secrets(ns).List`: metadata read by the code
(name, namespace, type, the kubed origin-namespace label) plus its data. -/
structure SecretItem where
  name : String
  nspace : String
  typeStr : String
  originNamespaceLabel : Option String
  data : SecretData

/-- One namespace: its name and the outcome of `Secrets(ns).List` (on error
the empty typed list is iterated, contributing nothing). -/
structure ClusterNS where
  name : String
  secretsResult : Except String (List SecretItem)

/-- The cluster as the secret-scanning variant observes it. -/
structure Cluster where
  namespacesResult : Except String (List ClusterNS)

/-- `getx509Data` of the secret-scanning variant: the secret is already in
hand (no Get call); read `tls.crt`, PEM-decode and X.509-parse it. -/
def getx509Data (secret : SecretItem) : Except String GoCert :=
  match secret.data.tlsCrt with
  | none => .error ("tls.crt does not exist in " ++ secret.nspace ++ "/" ++ secret.name)
  | some crt =>
    if crt.len = 0 then
      .error ("tls.crt for " ++ secret.nspace ++ "/" ++ secret.name ++ " is empty")
    else
      match crt.pemBlock with
      | none => .error ("Failed to decode certificate " ++ secret.nspace ++ "/" ++ secret.name)
      | some blk =>
        match blk.parsedCert with
        | none => .error ("Failed to parse certificate " ++ secret.nspace ++ "/" ++ secret.name)
        | some c => .ok c

/-- Accumulator of `getCertificateList`: the named return values
`(certificateInfoList, warnings, errors)`, all starting as nil slices. -/
abbrev Acc : Type := GoSlice CertificateInfo × GoSlice String × GoSlice String

/-- Body of the secret loop of `getCertificateList`: skip secrets that are
not of type `kubernetes.io/tls` and kubed-synced copies (origin-namespace
label present and different from the current namespace); on parse failure
append the error and `continue` (no list entry); on success fill the record,
run the expiry ladder (no hostname check in this variant) and append the
record. -/
def stepSecret (cfg : ApplicationConfig) (now : Int) (nsName : String)
    (acc : Acc) (secret : SecretItem) : Acc :=
  if secret.typeStr ≠ "kubernetes.io/tls" then acc
  else
    let skip : Bool := match secret.originNamespaceLabel with
      | some originNS => originNS != nsName
      | none => false
    if skip then acc
    else
      match getx509Data secret with
      | .error e => (acc.1, acc.2.1, acc.2.2.push e)
      | .ok c =>
        let daysLeft := daysLeftCalc c.notAfterUnix now
        let ladder := expiryLadder nsName secret.name c.dnsNames c.notAfterStr daysLeft
          cfg.critDaysLeft cfg.warnDaysLeft
        let certInfo : CertificateInfo :=
          { secretName := secret.name
            nspace := nsName
            issuer := c.issuerCN
            commonNames := c.subjectNameValues.foldl GoSlice.push (none : GoSlice String)
            notBefore := c.notBeforeStr
            notAfter := c.notAfterStr
            dnsNames := c.dnsNames
            daysLeft := daysLeft
            isValid := ladder.2.2 }
        (acc.1.push certInfo, ladder.2.1.foldl GoSlice.push acc.2.1,
          ladder.1.foldl GoSlice.push acc.2.2)

/-- Body of the namespace loop of `getCertificateList`: the error of
`Secrets(ns).List` is assigned to the blank identifier (the following
`if err != nil` tests the stale namespaces-call error, which is nil here). -/
def stepNamespace (cfg : ApplicationConfig) (now : Int) (acc : Acc) (ns : ClusterNS) : Acc :=
  let secrets := match ns.secretsResult with
    | .error _ => []
    | .ok l => l
  secrets.foldl (stepSecret cfg now ns.name) acc

/-- `getCertificateList` of the secret-scanning variant: on a
namespaces-enumeration failure, append that one error and return early
(before the nil-normalization); otherwise fold over all namespaces and then
replace nil warning/error slices with fresh empty slices. -/
def getCertificateList (cfg : ApplicationConfig) (cl : Cluster) (now : Int) : Acc :=
  match cl.namespacesResult with
  | .error e => (none, none, GoSlice.push none e)
  | .ok nss =>
    let r := nss.foldl (stepNamespace cfg now) (none, none, none)
    let w : GoSlice String := match r.2.1 with
      | none => some []
      | some l => some l
    let e : GoSlice String := match r.2.2 with
      | none => some []
      | some l => some l
    (r.1, w, e)

end SecretScan

/-- `pfxAt pat s` is true when the character list `pat` occurs at the start
of `s`. -/
def pfxAt : List Char → List Char → Bool
  | [], _ => true
  | _ :: _, [] => false
  | a :: as, b :: bs => a == b && pfxAt as bs

/-- `occursIn pat s` is true when `pat` occurs contiguously inside `s`. -/
def occursIn (pat : List Char) : List Char → Bool
  | [] => pfxAt pat []
  | c :: rest => pfxAt pat (c :: rest) || occursIn pat rest

/-- Substring occurrence on strings (used to state that an error message
contains a namespace or object name). -/
def strOccurs (pat s : String) : Bool :=
  occursIn pat.data s.data

/-- A cluster with exactly one namespace holding one ingress with one TLS
spec, whose referenced secret fetches and parses successfully to the given
certificate. -/
def IngressScan.singleSourceCluster (nsName ingName secretName : String)
    (hosts : List String) (c : GoCert) : IngressScan.Cluster :=
  { namespacesResult := .ok [⟨nsName, .ok [⟨ingName, [⟨secretName, hosts⟩]⟩]⟩]
    getSecret := fun _ _ =>
      .ok { tlsCrt := some { len := 1, pemBlock := some { parsedCert := some c } } } }

/-! ### Concrete instances used by witnesses and counterexamples -/

/-- A concrete snapshot with one error and one warning. -/
def snapshotC6 : IngressScan.StatusResponse :=
  { lastUpdated := "t", errors := some ["e1"], warnings := some ["w1"], certificates := none }

/-- Thresholds: critical 3 days, warn 30 days (the defaults). -/
def cfgC3 : ApplicationConfig := ⟨3, 30⟩

/-- A certificate 100 days from expiry whose hostname verification fails
for every queried host. -/
def certC3 : GoCert :=
  { notBeforeStr := "nb", notAfterStr := "na", notAfterUnix := 8640000, issuerCN := "ca"
    dnsNames := ["good.example.com"], subjectNameValues := []
    verifyHostname := fun _ => false }

/-- A single-source cluster expecting a host the certificate fails. -/
def clusterC3 : IngressScan.Cluster :=
  IngressScan.singleSourceCluster "prod" "web" "tls-secret" ["bad.example.com"] certC3

/-- Thresholds for the C7 counterexample. -/
def cfgC7 : ApplicationConfig := ⟨3, 30⟩

/-- A cluster whose single source's secret fetch fails with an opaque
client error message. -/
def clusterC7 : IngressScan.Cluster :=
  { namespacesResult := .ok [⟨"prod", .ok [⟨"web", [⟨"mysecret", []⟩]⟩]⟩]
    getSecret := fun _ _ => .error "boom" }

/-- Thresholds for the C9 evaluation. -/
def cfgC9 : ApplicationConfig := ⟨3, 30⟩

/-- A cluster (ingress variant) whose single namespace fails its
per-namespace ingress listing call. -/
def clusterC9I : IngressScan.Cluster :=
  { namespacesResult := .ok [{ name := "ns1", ingressesResult := .error "ingress list denied" }]
    getSecret := fun _ _ => .error "unused" }

/-- A cluster (secret variant) whose single namespace fails its
per-namespace secret listing call. -/
def clusterC9S : SecretScan.Cluster :=
  { namespacesResult := .ok [{ name := "ns1", secretsResult := .error "secret list denied" }] }

/-- Thresholds for the C10 counterexample. -/
def cfgC10 : ApplicationConfig := ⟨3, 30⟩

/-- A cluster (secret variant) whose namespace enumeration fails. -/
def clusterC10 : SecretScan.Cluster :=
  { namespacesResult := .error "enumeration failed" }

/-! ### Helper lemmas -/

theorem expiryLadder_expired (ns owner : String) (dns : List String) (na : String)
    {d crit warn : Int} (h : d ≤ 0) :
    expiryLadder ns owner dns na d crit warn = ([expiredMsg ns owner dns na], [], false) := by
  unfold expiryLadder
  rw [if_pos h]

theorem expiryLadder_ok (ns owner : String) (dns : List String) (na : String)
    {d crit warn : Int} (h1 : 0 < d) (h2 : crit < d) (h3 : warn ≤ d) :
    expiryLadder ns owner dns na d crit warn = ([], [], true) := by
  unfold expiryLadder
  split_ifs <;> first | rfl | omega

theorem hostLoop_fst (ns nm : String) (verify : String → Bool) (hosts : List String) :
    (hostLoop ns nm verify hosts).1 =
      (hosts.filter (fun h => ! verify h)).map (hostMismatchMsg ns nm) := by
  induction hosts with
  | nil => rfl
  | cons h hs ih =>
    cases hv : verify h <;> simp [hostLoop, hv, List.filter, ih]

theorem hostLoop_snd (ns nm : String) (verify : String → Bool) (hosts : List String) :
    (hostLoop ns nm verify hosts).2 = hosts.all verify := by
  induction hosts with
  | nil => rfl
  | cons h hs ih =>
    cases hv : verify h <;> simp [hostLoop, hv, ih]

theorem foldl_push_some {α : Type} (l acc : List α) :
    l.foldl GoSlice.push (some acc) = some (acc ++ l) := by
  induction l generalizing acc with
  | nil => simp
  | cons x xs ih => simp [GoSlice.push, ih]

theorem foldl_push_none_of_ne_nil {α : Type} {l : List α} (h : l ≠ []) :
    l.foldl GoSlice.push (none : GoSlice α) = some l := by
  cases l with
  | nil => exact absurd rfl h
  | cons x xs => simp [GoSlice.push, foldl_push_some]

theorem tdiv_ne_fdiv_of_neg {a : Int} (ha : a < 0) (hnd : ¬ (86400 : Int) ∣ a) :
    Int.tdiv a 86400 ≠ Int.fdiv a 86400 := by
  have h0 : (0 : Int) ≤ 86400 := by norm_num
  have h1 : a.tdiv 86400 = -((-a) / 86400) := by
    have h2 := Int.tdiv_eq_ediv (a := -a) (b := 86400) (by omega) h0
    have h3 := Int.neg_tdiv a 86400
    omega
  have h4 : a.fdiv 86400 = a / 86400 := Int.fdiv_eq_ediv a h0
  have h5 : a % 86400 ≠ 0 := fun hc => hnd (Int.dvd_of_emod_eq_zero hc)
  rw [h1, h4]
  omega

/-! ### Claims -/

/-- C1: the severity ladder is evaluated first-match-wins: `daysLeft ≤ 0`
gives the CRIT "expired on {notAfter}" error and clears `isValid`; else
`daysLeft ≤ criticalDaysLeft` gives the CRIT "will expire in {daysLeft}
days" error; else `daysLeft < warnDaysLeft` gives the same text as a
warning; otherwise no expiry diagnostic is produced.  At most one expiry
diagnostic is produced per certificate. -/
theorem claim_C1 (ns owner : String) (dns : List String) (na : String) (d crit warn : Int) :
    (d ≤ 0 →
      expiryLadder ns owner dns na d crit warn = ([expiredMsg ns owner dns na], [], false)) ∧
    (0 < d → d ≤ crit →
      expiryLadder ns owner dns na d crit warn = ([willExpireMsg ns owner dns d na], [], true)) ∧
    (0 < d → crit < d → d < warn →
      expiryLadder ns owner dns na d crit warn = ([], [willExpireMsg ns owner dns d na], true)) ∧
    (0 < d → crit < d → warn ≤ d →
      expiryLadder ns owner dns na d crit warn = ([], [], true)) ∧
    (expiryLadder ns owner dns na d crit warn).1.length +
      (expiryLadder ns owner dns na d crit warn).2.1.length ≤ 1 := by
  unfold expiryLadder
  refine ⟨?_, ?_, ?_, ?_, ?_⟩ <;> split_ifs <;> intros <;> simp_all <;> try omega

/-- Witness for C1 at a concrete expired certificate. -/
theorem claim_C1_witness :
    expiryLadder "ns1" "obj1" ["a.example.com"] "2026-01-01" 0 3 30 =
      ([expiredMsg "ns1" "obj1" ["a.example.com"] "2026-01-01"], [], false) :=
  (claim_C1 "ns1" "obj1" ["a.example.com"] "2026-01-01" 0 3 30).1 (by norm_num)

/-- C4: for every parsed certificate and current time, the record's
`daysLeft` equals the second-granularity difference divided by 86400 with
integer truncation toward zero (Go's `/` on `int64`); this also holds when
`notAfter` precedes `now`, where the truncated value differs from the
floor whenever 86400 does not divide the difference. -/
theorem claim_C4 (cfg : ApplicationConfig) (ns nm : String) (c : GoCert)
    (hosts : List String) (now : Int) :
    (IngressScan.processIngressCert cfg ns nm c hosts now).1.daysLeft =
      Int.tdiv (c.notAfterUnix - now) 86400 ∧
    (c.notAfterUnix < now → ¬ ((86400 : Int) ∣ (c.notAfterUnix - now)) →
      (IngressScan.processIngressCert cfg ns nm c hosts now).1.daysLeft ≠
        Int.fdiv (c.notAfterUnix - now) 86400) := by
  constructor
  · rfl
  · intro hlt hnd
    have : (IngressScan.processIngressCert cfg ns nm c hosts now).1.daysLeft =
        Int.tdiv (c.notAfterUnix - now) 86400 := rfl
    rw [this]
    exact tdiv_ne_fdiv_of_neg (by omega) hnd

/-- Witness for C4: one second past expiry truncates to 0 days left, while
the floor would be -1. -/
theorem claim_C4_witness :
    (IngressScan.processIngressCert ⟨3, 30⟩ "ns2" "obj2"
        ⟨"nb", "na", 0, "issuer", [], [], fun _ => true⟩ [] 1).1.daysLeft ≠
      Int.fdiv ((0 : Int) - 1) 86400 :=
  (claim_C4 ⟨3, 30⟩ "ns2" "obj2" ⟨"nb", "na", 0, "issuer", [], [], fun _ => true⟩ [] 1).2
    (by norm_num) (by decide)

/-- C6: the HTTP handler's status code is 202 when the snapshot's error
list is non-empty (regardless of warnings), else 201 when the warning list
is non-empty, else 200; it is 200 exactly when both lists are empty. -/
theorem claim_C6 (s : IngressScan.StatusResponse) :
    (0 < glen s.errors → IngressScan.httpStatusCode s = 202) ∧
    (glen s.errors = 0 → 0 < glen s.warnings → IngressScan.httpStatusCode s = 201) ∧
    (IngressScan.httpStatusCode s = 200 ↔ glen s.errors = 0 ∧ glen s.warnings = 0) := by
  unfold IngressScan.httpStatusCode
  split_ifs <;> simp_all <;> omega

/-- Witness for C6 at a snapshot with one error and one warning. -/
theorem claim_C6_witness : IngressScan.httpStatusCode snapshotC6 = 202 :=
  (claim_C6 snapshotC6).1 (by decide)

/-- C5: every expected hostname is checked via the certificate's
`VerifyHostname`; each mismatching hostname forces `isValid = false` and
appends one diagnostic naming that host; the loop does not short-circuit
(one diagnostic per failing host, in order); and hostname mismatches leave
the expiry diagnostics (the severity tier), the warnings and `daysLeft`
unchanged. -/
theorem claim_C5 (cfg : ApplicationConfig) (ns nm : String) (c : GoCert)
    (hosts : List String) (now : Int) :
    (∀ h ∈ hosts, c.verifyHostname h = false →
      (IngressScan.processIngressCert cfg ns nm c hosts now).1.isValid = false ∧
      hostMismatchMsg ns nm h ∈ (IngressScan.processIngressCert cfg ns nm c hosts now).2.1) ∧
    ((hostLoop ns nm c.verifyHostname hosts).1 =
      (hosts.filter (fun h => ! c.verifyHostname h)).map (hostMismatchMsg ns nm)) ∧
    ((IngressScan.processIngressCert cfg ns nm c hosts now).2.2 =
      (IngressScan.processIngressCert cfg ns nm c [] now).2.2) ∧
    ((IngressScan.processIngressCert cfg ns nm c hosts now).2.1 =
      (IngressScan.processIngressCert cfg ns nm c [] now).2.1 ++
        (hostLoop ns nm c.verifyHostname hosts).1) ∧
    ((IngressScan.processIngressCert cfg ns nm c hosts now).1.daysLeft =
      (IngressScan.processIngressCert cfg ns nm c [] now).1.daysLeft) := by
  refine ⟨?_, hostLoop_fst ns nm c.verifyHostname hosts, rfl, ?_, rfl⟩
  · intro h hmem hbad
    constructor
    · show (_ && (hostLoop ns nm c.verifyHostname hosts).2) = false
      rw [hostLoop_snd]
      have hall : hosts.all c.verifyHostname = false :=
        List.all_eq_false.2 ⟨h, hmem, by simp [hbad]⟩
      simp [hall]
    · show hostMismatchMsg ns nm h ∈ _ ++ (hostLoop ns nm c.verifyHostname hosts).1
      apply List.mem_append_right
      rw [hostLoop_fst]
      exact List.mem_map_of_mem _ (List.mem_filter.2 ⟨hmem, by simp [hbad]⟩)
  · show _ ++ (hostLoop ns nm c.verifyHostname hosts).1 =
      (_ ++ (hostLoop ns nm c.verifyHostname []).1) ++ (hostLoop ns nm c.verifyHostname hosts).1
    simp [hostLoop]

/-- Witness for C5: a concrete failing host yields an invalid record and a
diagnostic naming it. -/
theorem claim_C5_witness :
    (IngressScan.processIngressCert ⟨3, 30⟩ "ns5" "ing5"
        ⟨"nb", "na", 864000, "ca", [], [], fun _ => false⟩ ["x.example.com"] 0).1.isValid = false ∧
    hostMismatchMsg "ns5" "ing5" "x.example.com" ∈
      (IngressScan.processIngressCert ⟨3, 30⟩ "ns5" "ing5"
        ⟨"nb", "na", 864000, "ca", [], [], fun _ => false⟩ ["x.example.com"] 0).2.1 :=
  (claim_C5 ⟨3, 30⟩ "ns5" "ing5" ⟨"nb", "na", 864000, "ca", [], [], fun _ => false⟩
    ["x.example.com"] 0).1 "x.example.com" (by simp) rfl

theorem getIngresses_single (cfg : ApplicationConfig) (ns ing sn : String)
    (hosts : List String) (c : GoCert) (now : Int) :
    IngressScan.getIngresses cfg (IngressScan.singleSourceCluster ns ing sn hosts c) now =
      (GoSlice.push none
          ⟨ing, ns, hosts, sn, some (IngressScan.processIngressCert cfg ns ing c hosts now).1⟩,
        (IngressScan.processIngressCert cfg ns ing c hosts now).2.2.foldl GoSlice.push none,
        (IngressScan.processIngressCert cfg ns ing c hosts now).2.1.foldl GoSlice.push none) :=
  rfl

/-- Counterexample to C3: a certificate 100 days from expiry (severity OK)
that fails its one expected hostname gets `isValid = false`, but the
mismatch diagnostic is appended to the errors list, so the endpoint's HTTP
status is 202 with a non-empty errors list — not 200 with both lists
empty as the claim states. -/
theorem claim_C3_cex :
    IngressScan.httpStatusCode (IngressScan.refreshCycle cfgC3 clusterC3 0 "t") = 202 ∧
    (IngressScan.refreshCycle cfgC3 clusterC3 0 "t").errors =
      some [hostMismatchMsg "prod" "web" "bad.example.com"] ∧
    (IngressScan.refreshCycle cfgC3 clusterC3 0 "t").warnings = none ∧
    (IngressScan.refreshCycle cfgC3 clusterC3 0 "t").certificates.items.map
      (fun i => i.certificateInfo.map (fun ci => ci.isValid)) = [some false] :=
  ⟨rfl, rfl, rfl, rfl⟩

/-- C3 (amended): for a certificate far from expiry (severity OK: no expiry
diagnostic) with a failing expected hostname, the record has
`isValid = false` and a diagnostic naming the missing host is appended to
the errors list; consequently — because the HTTP status code tracks the
errors and warnings lists — this condition alone drives the endpoint's
HTTP status to 202 with empty warnings, not 200. -/
theorem claim_C3 (cfg : ApplicationConfig) (ns ing sn : String) (hosts : List String)
    (h : String) (c : GoCert) (now : Int) (lu : String)
    (hd0 : 0 < daysLeftCalc c.notAfterUnix now)
    (hdc : cfg.critDaysLeft < daysLeftCalc c.notAfterUnix now)
    (hdw : cfg.warnDaysLeft ≤ daysLeftCalc c.notAfterUnix now)
    (hmem : h ∈ hosts) (hbad : c.verifyHostname h = false) :
    ((IngressScan.refreshCycle cfg (IngressScan.singleSourceCluster ns ing sn hosts c) now
        lu).certificates.items.map
      (fun i => i.certificateInfo.map (fun ci => ci.isValid))) = [some false] ∧
    hostMismatchMsg ns ing h ∈
      (IngressScan.refreshCycle cfg (IngressScan.singleSourceCluster ns ing sn hosts c) now
        lu).errors.items ∧
    (IngressScan.refreshCycle cfg (IngressScan.singleSourceCluster ns ing sn hosts c) now
        lu).warnings = none ∧
    IngressScan.httpStatusCode
      (IngressScan.refreshCycle cfg (IngressScan.singleSourceCluster ns ing sn hosts c) now
        lu) = 202 := by
  have hlad : expiryLadder ns ing c.dnsNames c.notAfterStr (daysLeftCalc c.notAfterUnix now)
      cfg.critDaysLeft cfg.warnDaysLeft = ([], [], true) :=
    expiryLadder_ok ns ing c.dnsNames c.notAfterStr hd0 hdc hdw
  have hall : hosts.all c.verifyHostname = false :=
    List.all_eq_false.2 ⟨h, hmem, by simp [hbad]⟩
  have hmem' : hostMismatchMsg ns ing h ∈ (hostLoop ns ing c.verifyHostname hosts).1 := by
    rw [hostLoop_fst]
    exact List.mem_map_of_mem _ (List.mem_filter.2 ⟨hmem, by simp [hbad]⟩)
  have hne : (hostLoop ns ing c.verifyHostname hosts).1 ≠ [] := by
    intro h0
    rw [h0] at hmem'
    exact absurd hmem' (List.not_mem_nil _)
  have hproc : IngressScan.processIngressCert cfg ns ing c hosts now =
      (⟨c.issuerCN, c.subjectNameValues.foldl GoSlice.push none, c.notBeforeStr, c.notAfterStr,
        c.dnsNames, daysLeftCalc c.notAfterUnix now, false⟩,
       (hostLoop ns ing c.verifyHostname hosts).1, []) := by
    unfold IngressScan.processIngressCert
    simp [hlad, hostLoop_snd, hall]
  have hsnap : IngressScan.refreshCycle cfg
      (IngressScan.singleSourceCluster ns ing sn hosts c) now lu =
      { lastUpdated := lu
        errors := (hostLoop ns ing c.verifyHostname hosts).1.foldl GoSlice.push none
        warnings := none
        certificates := GoSlice.push none ⟨ing, ns, hosts, sn,
          some ⟨c.issuerCN, c.subjectNameValues.foldl GoSlice.push none, c.notBeforeStr,
            c.notAfterStr, c.dnsNames, daysLeftCalc c.notAfterUnix now, false⟩⟩ } := by
    unfold IngressScan.refreshCycle
    rw [getIngresses_single]
    simp [hproc]
  rw [hsnap]
  have herr : (hostLoop ns ing c.verifyHostname hosts).1.foldl GoSlice.push none =
      some (hostLoop ns ing c.verifyHostname hosts).1 :=
    foldl_push_none_of_ne_nil hne
  refine ⟨rfl, ?_, rfl, ?_⟩
  · show hostMismatchMsg ns ing h ∈
      GoSlice.items ((hostLoop ns ing c.verifyHostname hosts).1.foldl GoSlice.push none)
    rw [herr]
    exact hmem'
  · show IngressScan.httpStatusCode _ = 202
    unfold IngressScan.httpStatusCode
    have : 0 < glen ((hostLoop ns ing c.verifyHostname hosts).1.foldl GoSlice.push none) := by
      rw [herr]
      show 0 < (hostLoop ns ing c.verifyHostname hosts).1.length
      exact List.length_pos.2 hne
    simp only [this, if_pos]

/-- Witness for C3 at the concrete single-source cluster. -/
theorem claim_C3_witness :
    IngressScan.httpStatusCode
      (IngressScan.refreshCycle cfgC3
        (IngressScan.singleSourceCluster "prod" "web" "tls-secret" ["bad.example.com"] certC3)
        0 "t") = 202 :=
  (claim_C3 cfgC3 "prod" "web" "tls-secret" ["bad.example.com"] "bad.example.com" certC3 0 "t"
    (by decide) (by decide) (by decide) (by decide) rfl).2.2.2

theorem pfxAt_self_append (p r : List Char) : pfxAt p (p ++ r) = true := by
  induction p with
  | nil => rfl
  | cons a as ih => simp [pfxAt, ih]

theorem occursIn_of_pfxAt {p s : List Char} (h : pfxAt p s = true) : occursIn p s = true := by
  cases s with
  | nil =>
    cases p with
    | nil => rfl
    | cons a as => simp [pfxAt] at h
  | cons c rest => simp [occursIn, h]

theorem occursIn_append_left (p : List Char) (x : List Char) {y : List Char}
    (h : occursIn p y = true) : occursIn p (x ++ y) = true := by
  induction x with
  | nil => simpa using h
  | cons c cs ih => simp [occursIn, ih]

theorem occursIn_self_append (p r : List Char) : occursIn p (p ++ r) = true :=
  occursIn_of_pfxAt (pfxAt_self_append p r)

theorem strOccurs_mid (p a b : String) : strOccurs p (a ++ p ++ b) = true := by
  unfold strOccurs
  have hd : (a ++ p ++ b).data = a.data ++ (p.data ++ b.data) := by
    simp [String.data_append]
  rw [hd]
  exact occursIn_append_left p.data a.data (occursIn_self_append p.data b.data)

theorem strOccurs_suffix (p a : String) : strOccurs p (a ++ p) = true := by
  unfold strOccurs
  have hd : (a ++ p).data = a.data ++ (p.data ++ []) := by
    simp [String.data_append]
  rw [hd]
  exact occursIn_append_left p.data a.data (occursIn_self_append p.data [])

/-- Counterexample to C7: a source whose secret fetch fails with the opaque
client message "boom" appends exactly that message — which contains neither
the owning namespace "prod" nor the secret name "mysecret" — so the claim
that the appended error message always contains the owning object's
namespace and name is false. -/
theorem claim_C7_cex :
    IngressScan.getIngresses cfgC7 clusterC7 0 = (none, none, some ["boom"]) ∧
    strOccurs "prod" "boom" = false ∧
    strOccurs "mysecret" "boom" = false :=
  ⟨rfl, by decide, by decide⟩

/-- C7 (amended): when a source's certificate payload fetch or parse fails,
exactly one error message is appended (the parse-stage failures — `tls.crt`
absent, `tls.crt` empty, PEM decode failure, X.509 parse failure — carry
the owning object's namespace and name; a fetch failure appends the
client's error text verbatim, which may omit them), the source contributes
no entry to the certificates list, the warnings are untouched, and
processing continues with the remaining sources of the cycle. -/
theorem claim_C7 (cfg : ApplicationConfig) (cl : IngressScan.Cluster) (now : Int)
    (nsName ingName : String) (acc : IngressScan.Acc) (spec : IngressScan.TLSSpec) :
    (∀ e, IngressScan.getx509Data cl.getSecret nsName spec.secretName = .error e →
      IngressScan.stepTLSSpec cfg cl now nsName ingName acc spec =
        (acc.1, acc.2.1, acc.2.2.push e)) ∧
    (∀ sd e, cl.getSecret nsName spec.secretName = .ok sd →
      IngressScan.getx509Data cl.getSecret nsName spec.secretName = .error e →
      strOccurs nsName e = true ∧ strOccurs spec.secretName e = true) ∧
    (∀ pre post : List IngressScan.TLSSpec,
      IngressScan.stepIngress cfg cl now nsName acc { name := ingName, tls := pre ++ spec :: post } =
        List.foldl (IngressScan.stepTLSSpec cfg cl now nsName ingName)
          (IngressScan.stepTLSSpec cfg cl now nsName ingName
            (List.foldl (IngressScan.stepTLSSpec cfg cl now nsName ingName) acc pre) spec)
          post) := by
  refine ⟨?_, ?_, ?_⟩
  · intro e he
    unfold IngressScan.stepTLSSpec
    rw [he]
  · intro sd e hok herr
    unfold IngressScan.getx509Data at herr
    rw [hok] at herr
    dsimp only at herr
    cases hcrt : sd.tlsCrt with
    | none =>
      rw [hcrt] at herr
      have he : e = "tls.crt does not exist in " ++ nsName ++ "/" ++ spec.secretName := by
        cases herr
        rfl
      subst he
      constructor
      · rw [String.append_assoc]
        exact strOccurs_mid nsName "tls.crt does not exist in " ("/" ++ spec.secretName)
      · exact strOccurs_suffix spec.secretName ("tls.crt does not exist in " ++ nsName ++ "/")
    | some crt =>
      rw [hcrt] at herr
      dsimp only at herr
      by_cases hlen : crt.len = 0
      · rw [if_pos hlen] at herr
        have he : e = "tls.crt for " ++ nsName ++ "/" ++ spec.secretName ++ " is empty" := by
          cases herr
          rfl
        subst he
        constructor
        · rw [String.append_assoc, String.append_assoc]
          exact strOccurs_mid nsName "tls.crt for " ("/" ++ spec.secretName ++ " is empty")
        · rw [show "tls.crt for " ++ nsName ++ "/" ++ spec.secretName ++ " is empty" =
              ("tls.crt for " ++ nsName ++ "/") ++ spec.secretName ++ " is empty" by
            simp [String.append_assoc]]
          exact strOccurs_mid spec.secretName ("tls.crt for " ++ nsName ++ "/") " is empty"
      · rw [if_neg hlen] at herr
        cases hpem : crt.pemBlock with
        | none =>
          rw [hpem] at herr
          dsimp only at herr
          have he : e = "Failed to decode certificate " ++ nsName ++ "/" ++ spec.secretName := by
            cases herr
            rfl
          subst he
          constructor
          · rw [String.append_assoc]
            exact strOccurs_mid nsName "Failed to decode certificate " ("/" ++ spec.secretName)
          · exact strOccurs_suffix spec.secretName
              ("Failed to decode certificate " ++ nsName ++ "/")
        | some blk =>
          rw [hpem] at herr
          dsimp only at herr
          cases hparse : blk.parsedCert with
          | none =>
            rw [hparse] at herr
            dsimp only at herr
            have he : e = "Failed to parse certificate " ++ nsName ++ "/" ++ spec.secretName := by
              cases herr
              rfl
            subst he
            constructor
            · rw [String.append_assoc]
              exact strOccurs_mid nsName "Failed to parse certificate " ("/" ++ spec.secretName)
            · exact strOccurs_suffix spec.secretName
                ("Failed to parse certificate " ++ nsName ++ "/")
          | some c =>
            rw [hparse] at herr
            dsimp only at herr
            cases herr
  · intro pre post
    unfold IngressScan.stepIngress
    simp [List.foldl_append]

/-- Witness for C7: the empty-`tls.crt` failure mode appends one message
containing both the namespace and the secret name, contributes no record
and leaves the warnings untouched. -/
theorem claim_C7_witness :
    IngressScan.stepTLSSpec cfgC7
        { namespacesResult := .ok [], getSecret := fun _ _ => .ok ⟨some ⟨0, none⟩⟩ } 0
        "ns7" "ing7" (none, none, none) ⟨"sec7", []⟩ =
      (none, none, GoSlice.push none ("tls.crt for " ++ "ns7" ++ "/" ++ "sec7" ++ " is empty")) ∧
    strOccurs "ns7" ("tls.crt for " ++ "ns7" ++ "/" ++ "sec7" ++ " is empty") = true ∧
    strOccurs "sec7" ("tls.crt for " ++ "ns7" ++ "/" ++ "sec7" ++ " is empty") = true := by
  refine ⟨?_, ?_, ?_⟩
  · exact (claim_C7 cfgC7
      { namespacesResult := .ok [], getSecret := fun _ _ => .ok ⟨some ⟨0, none⟩⟩ } 0
      "ns7" "ing7" (none, none, none) ⟨"sec7", []⟩).1 _ rfl
  · exact ((claim_C7 cfgC7
      { namespacesResult := .ok [], getSecret := fun _ _ => .ok ⟨some ⟨0, none⟩⟩ } 0
      "ns7" "ing7" (none, none, none) ⟨"sec7", []⟩).2.1 ⟨some ⟨0, none⟩⟩ _ rfl rfl).1
  · exact ((claim_C7 cfgC7
      { namespacesResult := .ok [], getSecret := fun _ _ => .ok ⟨some ⟨0, none⟩⟩ } 0
      "ns7" "ing7" (none, none, none) ⟨"sec7", []⟩).2.1 ⟨some ⟨0, none⟩⟩ _ rfl rfl).2

/-- C8: when the cluster-wide namespace enumeration fails, the cycle (in
both variants) records exactly that one error, returns a nil records list,
and the refresh iteration still builds a snapshot whose certificates list
is empty — independent of any previous snapshot, since the fresh
`StatusResponse` is built only from this cycle's three results. -/
theorem claim_C8 (cfg : ApplicationConfig) (e : String)
    (gs : String → String → Except String SecretData) (now : Int) (lu : String) :
    IngressScan.getIngresses cfg { namespacesResult := .error e, getSecret := gs } now =
      (none, none, some [e]) ∧
    SecretScan.getCertificateList cfg { namespacesResult := .error e } now =
      (none, none, some [e]) ∧
    IngressScan.refreshCycle cfg { namespacesResult := .error e, getSecret := gs } now lu =
      { lastUpdated := lu, errors := some [e], warnings := none, certificates := none } ∧
    glen (IngressScan.refreshCycle cfg { namespacesResult := .error e, getSecret := gs }
      now lu).errors = 1 :=
  ⟨rfl, rfl, rfl, rfl⟩

/-- C9 evaluated at the failing input: a namespace whose per-namespace
listing call fails contributes nothing to the error list in either variant
(the listing error is assigned to the blank identifier and the `err != nil`
guard tests the stale namespaces-call error), so the cycle's error list
stays empty — the failure is dropped silently, contradicting the claim
that a categorized error is appended. -/
theorem claim_C9 :
    IngressScan.getIngresses cfgC9 clusterC9I 0 = (none, none, none) ∧
    SecretScan.getCertificateList cfgC9 clusterC9S 0 = (none, some [], some []) :=
  ⟨rfl, rfl⟩

/-- Counterexample to C10: on a cluster state whose namespace enumeration
fails, `getCertificateList` returns early — before the nil-normalization —
with a nil (null-serializing) warnings slice. -/
theorem claim_C10_cex :
    (SecretScan.getCertificateList cfgC10 clusterC10 0).2.1 = none ∧
    SecretScan.getCertificateList cfgC10 clusterC10 0 =
      (none, none, some ["enumeration failed"]) :=
  ⟨rfl, rfl⟩

/-- C10 (amended): whenever the namespace enumeration succeeds,
`getCertificateList` returns non-nil warnings and errors slices (they are
normalized to fresh empty slices before the final return); only the early
return on enumeration failure bypasses the normalization and yields a nil
warnings slice.  The ingress-scanning variant performs no normalization and
returns nil slices for, e.g., an empty cluster. -/
theorem claim_C10 (cfg : ApplicationConfig) (cl : SecretScan.Cluster) (now : Int)
    (nss : List SecretScan.ClusterNS) (h : cl.namespacesResult = .ok nss)
    (gs : String → String → Except String SecretData) :
    (SecretScan.getCertificateList cfg cl now).2.1 ≠ none ∧
    (SecretScan.getCertificateList cfg cl now).2.2 ≠ none ∧
    IngressScan.getIngresses cfg { namespacesResult := .ok [], getSecret := gs } now =
      (none, none, none) := by
  unfold SecretScan.getCertificateList
  rw [h]
  dsimp only
  refine ⟨?_, ?_, rfl⟩
  · cases (List.foldl (SecretScan.stepNamespace cfg now) (none, none, none) nss).2.1 <;> simp
  · cases (List.foldl (SecretScan.stepNamespace cfg now) (none, none, none) nss).2.2 <;> simp

/-- Witness for C10 at an empty but successfully enumerated cluster. -/
theorem claim_C10_witness :
    (SecretScan.getCertificateList ⟨3, 30⟩ { namespacesResult := .ok [] } 0).2.1 ≠ none ∧
    (SecretScan.getCertificateList ⟨3, 30⟩ { namespacesResult := .ok [] } 0).2.2 ≠ none :=
  ⟨(claim_C10 ⟨3, 30⟩ { namespacesResult := .ok [] } 0 [] rfl (fun _ _ => .error "x")).1,
   (claim_C10 ⟨3, 30⟩ { namespacesResult := .ok [] } 0 [] rfl (fun _ _ => .error "x")).2.1⟩
